import Mathlib

set_option maxRecDepth 4000

/-!
A verification development for the wyag content tracker (src/libwyag.py).

Modelling conventions, used throughout:
* Python byte strings and Python text strings are both modelled as
  `List Nat` (one entry per byte).  A Python text string is represented by
  its UTF-8 bytes, so that `encode("utf-8")` and `decode("utf-8")` become
  the identity, concatenation is concatenation, and lexicographic
  comparison of strings coincides with lexicographic comparison of the
  byte lists.  Byte-indexed slicing agrees with character-indexed slicing
  on the ASCII data manipulated here.
* Python runtime failures (TypeError, AssertionError, ...) are modelled by
  `Except PyErr`.  Unbounded loops and recursions of the source are given
  explicit fuel; exhausted fuel is the distinguished value
  `PyErr.timeout`, which no Python control path produces.
* zlib is an external codec and is passed in as an explicit
  `compress` / `decompress` function pair.  SHA-1 is implemented in full
  below (the `hashlib` primitive).
-/

/-- Python-level runtime errors raised by the embedded code. -/
inductive PyErr where
  | typeError
  | assertionError
  | indexError
  | keyError
  | attributeError
  | valueError
  | overflowError
  | exception
  | timeout
deriving DecidableEq

deriving instance DecidableEq for Except

/-- The bytes of an ASCII Lean string literal, used to transcribe the byte
and string literals of the Python source. -/
def bstr (s : String) : List Nat := s.toList.map Char.toNat

/-- Python bytes.find for a single byte: first index at or after `start`
holding `b`, and -1 when there is none (a negative `start` counts from the
end, clamped at 0, as in Python). -/
def pyFind (raw : List Nat) (b : Nat) (start : Int) : Int :=
  let s : Nat := if start < 0 then (max ((raw.length : Int) + start) 0).toNat else start.toNat
  match (raw.drop s).findIdx? (fun c => c == b) with
  | some i => ((s + i : Nat) : Int)
  | none => -1

/-- Python indexing raw[i]: negative indices count from the end and out of
range indices raise IndexError. -/
def pyIndex (raw : List Nat) (i : Int) : Except PyErr Nat :=
  let j : Int := if i < 0 then i + raw.length else i
  if j < 0 then .error .indexError
  else
    match raw[j.toNat]? with
    | some v => .ok v
    | none => .error .indexError

/-- Normalise one Python slice endpoint against a list of length `len`. -/
def pySliceIdx (len : Nat) (i : Int) : Nat :=
  if i < 0 then (max ((len : Int) + i) 0).toNat else min i.toNat len

/-- Python slicing raw[a:b] with the usual clamping and negative-index
conventions. -/
def pySlice (raw : List Nat) (a b : Int) : List Nat :=
  ((raw.take (pySliceIdx raw.length b)).drop (pySliceIdx raw.length a))

/-- int.from_bytes(_, "big"). -/
def bytesToNat (bs : List Nat) : Nat :=
  bs.foldl (fun a b => a * 256 + b) 0

/-- Big-endian bytes of `n` on exactly `len` bytes (callers check the
OverflowError condition first). -/
def natToBytes (n : Nat) (len : Nat) : List Nat :=
  (List.range len).map (fun i => n / 256 ^ (len - 1 - i) % 256)

/-- n.to_bytes(len, "big"): OverflowError when the value does not fit. -/
def toBytesChecked (n : Nat) (len : Nat) : Except PyErr (List Nat) :=
  if n < 256 ^ len then .ok (natToBytes n len) else .error .overflowError

/-- Decimal digits of `n`, as bytes: str(n). -/
def decStr (n : Nat) : List Nat := (Nat.toDigits 10 n).map Char.toNat

/-- Lowercase hexadecimal digits of `n`, as bytes. -/
def natHex (n : Nat) : List Nat := (Nat.toDigits 16 n).map Char.toNat

/-- format(n, "040x"): lowercase hex, zero padded on the left to width 40. -/
def natToHex40 (n : Nat) : List Nat :=
  let h := natHex n
  List.replicate (40 - h.length) 48 ++ h

/-- One lowercase hex digit as a byte. -/
def hexDigit (n : Nat) : Nat := if n < 10 then 48 + n else 87 + n

/-- hexdigest: two lowercase hex digits per byte. -/
def bytesToHex (bs : List Nat) : List Nat :=
  bs.foldr (fun b acc => hexDigit (b / 16) :: hexDigit (b % 16) :: acc) []

/-- Value of one hex digit byte, if it is one. -/
def hexVal (c : Nat) : Option Nat :=
  if 48 ≤ c ∧ c ≤ 57 then some (c - 48)
  else if 97 ≤ c ∧ c ≤ 102 then some (c - 87)
  else if 65 ≤ c ∧ c ≤ 70 then some (c - 55)
  else none

/-- int(s, 16) on a plain hex numeral (the only shape the source feeds it). -/
def hexToNat (s : List Nat) : Option Nat :=
  if s.isEmpty then none
  else
    s.foldl
      (fun acc c =>
        match acc, hexVal c with
        | some a, some v => some (a * 16 + v)
        | _, _ => none)
      (some 0)

/-- Python str.strip whitespace test. -/
def isPySpace (c : Nat) : Bool :=
  c == 32 || c == 9 || c == 10 || c == 13 || c == 11 || c == 12

/-- Python strip(): remove leading and trailing whitespace. -/
def pyStripBytes (s : List Nat) : List Nat :=
  ((s.dropWhile isPySpace).reverse.dropWhile isPySpace).reverse

/-- Decimal digits to a number, when the digit list is nonempty and all
decimal. -/
def digitsToNat? (s : List Nat) : Option Nat :=
  if s.isEmpty then none
  else
    s.foldl
      (fun acc c =>
        match acc with
        | some a => if 48 ≤ c ∧ c ≤ 57 then some (a * 10 + (c - 48)) else none
        | none => none)
      (some 0)

/-- int(bytes.decode("ascii")): ValueError on non-ASCII bytes or a
malformed numeral; surrounding whitespace and a sign are accepted. -/
def parsePyInt (s : List Nat) : Except PyErr Int :=
  if s.any (fun c => 127 < c) then .error .valueError
  else
    let t := pyStripBytes s
    match t with
    | 45 :: rest =>
      match digitsToNat? rest with
      | some n => .ok (-(n : Int))
      | none => .error .valueError
    | 43 :: rest =>
      match digitsToNat? rest with
      | some n => .ok (n : Int)
      | none => .error .valueError
    | _ =>
      match digitsToNat? t with
      | some n => .ok (n : Int)
      | none => .error .valueError

/-- Lexicographic comparison of byte lists; this is exactly the order in
which Python compares the (ASCII) strings used as tree sort keys. -/
def listLe : List Nat → List Nat → Bool
  | [], _ => true
  | _ :: _, [] => false
  | a :: as, b :: bs => if a < b then true else if b < a then false else listLe as bs

/-- os.path.dirname for the relative POSIX paths the source manipulates. -/
def pyDirname (p : List Nat) : List Nat :=
  match p.reverse.findIdx? (fun c => c == 47) with
  | none => []
  | some rj =>
    let head := p.take (p.length - rj)
    if head.all (fun c => c == 47) then head
    else (head.reverse.dropWhile (fun c => c == 47)).reverse

/-- os.path.basename for the relative POSIX paths the source manipulates. -/
def pyBasename (p : List Nat) : List Nat :=
  match p.reverse.findIdx? (fun c => c == 47) with
  | none => p
  | some rj => p.drop (p.length - rj)

/-! SHA-1 (the hashlib primitive), bytes in, 20 bytes out. -/

/-- 32-bit left rotation. -/
def rotl (n x : Nat) : Nat :=
  ((x <<< n) ||| (x >>> (32 - n))) % 4294967296

/-- Extend the 16 schedule words of a chunk to 80. -/
def sha1Schedule (init : List Nat) : List Nat :=
  (List.range 64).foldl
    (fun ws j =>
      let i := j + 16
      ws ++ [rotl 1 ((ws.getD (i - 3) 0) ^^^ (ws.getD (i - 8) 0) ^^^ (ws.getD (i - 14) 0) ^^^ (ws.getD (i - 16) 0))])
    init

/-- Round function and constant for round `i`. -/
def sha1FK (i b c d : Nat) : Nat × Nat :=
  if i < 20 then ((b &&& c) ||| ((b ^^^ 4294967295) &&& d), 1518500249)
  else if i < 40 then (b ^^^ c ^^^ d, 1859775393)
  else if i < 60 then ((b &&& c) ||| (b &&& d) ||| (c &&& d), 2400959708)
  else (b ^^^ c ^^^ d, 3395469782)

/-- Compress one 64-byte chunk into the running state. -/
def sha1Chunk (h : List Nat) (chunk : List Nat) : List Nat :=
  let ws := sha1Schedule ((List.range 16).map (fun i => bytesToNat ((chunk.drop (4 * i)).take 4)))
  let st :=
    (List.range 80).foldl
      (fun st i =>
        match st with
        | (a, b, c, d, e) =>
          let fk := sha1FK i b c d
          let temp := (rotl 5 a + fk.1 + e + fk.2 + ws.getD i 0) % 4294967296
          (temp, a, rotl 30 b, c, d))
      (h.getD 0 0, h.getD 1 0, h.getD 2 0, h.getD 3 0, h.getD 4 0)
  match st with
  | (a, b, c, d, e) =>
    [(h.getD 0 0 + a) % 4294967296, (h.getD 1 0 + b) % 4294967296,
     (h.getD 2 0 + c) % 4294967296, (h.getD 3 0 + d) % 4294967296,
     (h.getD 4 0 + e) % 4294967296]

/-- Merkle-Damgard padding: 0x80, zeros to 56 mod 64, 64-bit bit length. -/
def sha1Pad (msg : List Nat) : List Nat :=
  let l := msg.length
  msg ++ [128] ++ List.replicate ((119 - l % 64) % 64) 0 ++ natToBytes (8 * l) 8

/-- Fold the compression function over the 64-byte blocks. -/
def sha1Blocks (fuel : Nat) (h : List Nat) (data : List Nat) : List Nat :=
  match fuel with
  | 0 => h
  | n + 1 =>
    match data with
    | [] => h
    | _ => sha1Blocks n (sha1Chunk h (data.take 64)) (data.drop 64)

/-- SHA-1 digest of a byte string, as 20 bytes. -/
def sha1 (msg : List Nat) : List Nat :=
  let padded := sha1Pad msg
  let h :=
    sha1Blocks (padded.length / 64 + 1)
      [1732584193, 4023233417, 2562383102, 271733878, 3285377520] padded
  h.foldr (fun w acc => natToBytes w 4 ++ acc) []

/-- hashlib.sha1(_).hexdigest(): 40 lowercase hex characters. -/
def sha1Hex (msg : List Nat) : List Nat := bytesToHex (sha1 msg)

/-! KVLM: key-value list with message (libwyag.py lines 508 to 567).
A Python OrderedDict with an optional None key is modelled as an
insertion-ordered association list keyed by `Option (List Nat)`. -/

/-- A KVLM value: a single byte string, or a list once a key repeats. -/
inductive KvlmVal where
  | one (v : List Nat)
  | many (vs : List (List Nat))
deriving DecidableEq

/-- Insertion-ordered mapping from optional byte-string key to value. -/
abbrev Kvlm := List (Option (List Nat) × KvlmVal)

/-- dct[k] = v on an ordered dict: replace in place, or append a new key. -/
def kvlmSet (d : Kvlm) (k : Option (List Nat)) (v : KvlmVal) : Kvlm :=
  if d.any (fun p => decide (p.1 = k)) then
    d.map (fun p => if p.1 = k then (k, v) else p)
  else d ++ [(k, v)]

/-- dct.get(k) on an ordered dict. -/
def kvlmGet (d : Kvlm) (k : Option (List Nat)) : Option KvlmVal :=
  (d.find? (fun p => decide (p.1 = k))).map (fun p => p.2)

/-- bytes.replace of the two-byte sequence LF SP by LF, scanning left to
right (unescaping of continuation lines in kvlm_parse). -/
def pyReplaceNlSp : List Nat → List Nat
  | 10 :: 32 :: rest => 10 :: pyReplaceNlSp rest
  | c :: rest => c :: pyReplaceNlSp rest
  | [] => []

/-- bytes.replace of LF by LF SP (escaping in kvlm_serialize). -/
def pyEscapeNl : List Nat → List Nat
  | 10 :: rest => 10 :: 32 :: pyEscapeNl rest
  | c :: rest => c :: pyEscapeNl rest
  | [] => []

/-- The while loop of kvlm_parse that walks to the end of a value: advance
through successive LFs while the byte after each LF is SP.  The loop of
the source has no intrinsic bound, hence the fuel. -/
def kvlmFindEnd (raw : List Nat) : Nat → Int → Except PyErr Int
  | 0, _ => .error .timeout
  | fuel + 1, e =>
    let e2 := pyFind raw 10 (e + 1)
    match pyIndex raw (e2 + 1) with
    | .error err => .error err
    | .ok b => if b ≠ 32 then .ok e2 else kvlmFindEnd raw fuel e2

/-- kvlm_parse (libwyag.py lines 508 to 545), faithfully including the
inverted accumulator condition of the source: on entry, a passed-in dict
is replaced by a fresh empty one, while the default None is kept, so that
the subsequent item assignment or membership test on None raises
TypeError. -/
def kvlm_parse (fuel : Nat) (raw : List Nat) (start : Int) (dct0 : Option Kvlm) :
    Except PyErr Kvlm :=
  match fuel with
  | 0 => .error .timeout
  | fuel + 1 =>
    let dct : Option Kvlm := if dct0.isSome then some [] else none
    let spc := pyFind raw 32 start
    let nl := pyFind raw 10 start
    if spc < 0 ∨ nl < spc then
      if nl ≠ start then .error .assertionError
      else
        match dct with
        | none => .error .typeError
        | some d => .ok (kvlmSet d none (.one (pySlice raw (start + 1) raw.length)))
    else
      let key := pySlice raw start spc
      match kvlmFindEnd raw (raw.length + 2) start with
      | .error e => .error e
      | .ok endPos =>
        let value := pyReplaceNlSp (pySlice raw (spc + 1) endPos)
        match dct with
        | none => .error .typeError
        | some d =>
          let d2 :=
            match kvlmGet d (some key) with
            | some (.many vs) => kvlmSet d (some key) (.many (vs ++ [value]))
            | some (.one v) => kvlmSet d (some key) (.many [v, value])
            | none => kvlmSet d (some key) (.one value)
          kvlm_parse fuel raw (endPos + 1) (some d2)

/-- kvlm_serialize (libwyag.py lines 548 to 567): emit the header lines in
insertion order with continuation escaping, then a blank line, the
message, and a trailing LF.  A missing message slot raises KeyError. -/
def kvlm_serialize (kvlm : Kvlm) : Except PyErr (List Nat) :=
  let ret :=
    kvlm.foldl
      (fun acc p =>
        match p with
        | (none, _) => acc
        | (some k, v) =>
          let vals := match v with | .one x => [x] | .many xs => xs
          vals.foldl (fun a x => a ++ k ++ [32] ++ pyEscapeNl x ++ [10]) acc)
      []
  match kvlmGet kvlm none with
  | none => .error .keyError
  | some (.many _) => .error .typeError
  | some (.one m) => .ok (ret ++ [10] ++ m ++ [10])

/-! Trees (libwyag.py lines 638 to 705). -/

/-- One tree record: mode bytes, path (a Python str, as its UTF-8 bytes),
and the SHA as a 40-character lowercase hex string. -/
structure GitTreeLeaf where
  mode : List Nat
  path : List Nat
  sha : List Nat
deriving DecidableEq

/-- tree_leaf_sort_key (libwyag.py lines 675 to 679): the path itself when
the mode starts with the bytes of "10", and the path followed by a slash
for every other mode. -/
def tree_leaf_sort_key (leaf : GitTreeLeaf) : List Nat :=
  if (bstr "10").isPrefixOf leaf.mode then leaf.path else leaf.path ++ [47]

/-- Boolean comparison of leaves by their sort key, as Python list.sort
with key=tree_leaf_sort_key compares them. -/
def treeLeafLe (a b : GitTreeLeaf) : Bool :=
  listLe (tree_leaf_sort_key a) (tree_leaf_sort_key b)

/-- The sort relation of tree_serialize.  Python list.sort is a stable
sort by the key; a stable sort by a total preorder has a unique result,
so the stable insertion sort used below computes exactly what the source
computes. -/
abbrev leafRel (a b : GitTreeLeaf) : Prop := treeLeafLe a b = true

/-- One record of tree_serialize: mode, SP, path bytes, then the SHA as 20
binary bytes.  Note that this source, unlike upstream Git, emits no NUL
between the path and the SHA; the model reproduces that byte for byte.
int(sha, 16) raises ValueError on a non-hex SHA and to_bytes(20, "big")
raises OverflowError when it does not fit. -/
def tree_serialize_leaf (i : GitTreeLeaf) : Except PyErr (List Nat) :=
  match hexToNat i.sha with
  | none => .error .valueError
  | some n =>
    if n < 256 ^ 20 then .ok (i.mode ++ [32] ++ i.path ++ natToBytes n 20)
    else .error .overflowError

/-- Concatenate the records of an already-ordered item list. -/
def tree_emit (items : List GitTreeLeaf) : Except PyErr (List Nat) :=
  items.foldl
    (fun acc i =>
      match acc with
      | .error e => .error e
      | .ok r =>
        match tree_serialize_leaf i with
        | .error e => .error e
        | .ok b => .ok (r ++ b))
    (.ok [])

/-- tree_serialize (libwyag.py lines 682 to 691): stable-sort the items by
tree_leaf_sort_key, then emit the records. -/
def tree_serialize (items : List GitTreeLeaf) : Except PyErr (List Nat) :=
  tree_emit (List.insertionSort leafRel items)

/-- The sort key as the specification words it: name with a slash appended
exactly for directory modes (mode beginning "04"), the bare name for every
other mode.  This definition follows the claim, for comparison with
tree_leaf_sort_key above. -/
def tree_leaf_sort_key_spec (leaf : GitTreeLeaf) : List Nat :=
  if (bstr "04").isPrefixOf leaf.mode then leaf.path ++ [47] else leaf.path

/-- Comparison by the specification key. -/
def treeLeafLeSpec (a b : GitTreeLeaf) : Bool :=
  listLe (tree_leaf_sort_key_spec a) (tree_leaf_sort_key_spec b)

/-- The sort relation induced by the specification key. -/
abbrev leafRelSpec (a b : GitTreeLeaf) : Prop := treeLeafLeSpec a b = true

/-- Tree serialization as the specification describes the ordering:
stable-sort by the specification key, then emit the records. -/
def tree_serialize_specsort (items : List GitTreeLeaf) : Except PyErr (List Nat) :=
  tree_emit (List.insertionSort leafRelSpec items)

/-- tree_parse_one (libwyag.py lines 645 to 662): mode up to the SP
(asserted 5 or 6 bytes, a 5-byte mode padded with a leading SP), path up
to the NUL, then 20 binary SHA bytes rendered as 40 hex characters. -/
def tree_parse_one (raw : List Nat) (start : Int) : Except PyErr (Int × GitTreeLeaf) :=
  let x := pyFind raw 32 start
  if ¬(x - start = 5 ∨ x - start = 6) then .error .assertionError
  else
    let mode0 := pySlice raw start x
    let mode := if mode0.length = 5 then 32 :: mode0 else mode0
    let y := pyFind raw 0 x
    let path := pySlice raw (x + 1) y
    let sha := natToHex40 (bytesToNat (pySlice raw (y + 1) (y + 21)))
    .ok (y + 21, { mode := mode, path := path, sha := sha })

/-- tree_parse (libwyag.py lines 665 to 672): records in sequence until
the position reaches the end.  Fueled, since a malformed record need not
advance the position. -/
def tree_parse (fuel : Nat) (raw : List Nat) (pos : Int) : Except PyErr (List GitTreeLeaf) :=
  match fuel with
  | 0 => .error .timeout
  | n + 1 =>
    if pos < (raw.length : Int) then
      match tree_parse_one raw pos with
      | .error e => .error e
      | .ok (p2, leaf) =>
        match tree_parse n raw p2 with
        | .error e => .error e
        | .ok rest => .ok (leaf :: rest)
    else .ok []

/-! Objects and the loose-object store (libwyag.py lines 281 to 407). -/

/-- The four object kinds with their payloads, as the GitObject subclasses
hold them after deserialization. -/
inductive GitObj where
  | blob (blobdata : List Nat)
  | tree (items : List GitTreeLeaf)
  | commit (kvlm : Kvlm)
  | tag (kvlm : Kvlm)
deriving DecidableEq

/-- The fmt class attribute: the ASCII kind name used in headers. -/
def GitObj.fmt : GitObj → List Nat
  | .blob _ => bstr "blob"
  | .tree _ => bstr "tree"
  | .commit _ => bstr "commit"
  | .tag _ => bstr "tag"

/-- obj.serialize(): the payload bytes of each kind. -/
def GitObj.serialize : GitObj → Except PyErr (List Nat)
  | .blob d => .ok d
  | .tree items => tree_serialize items
  | .commit k => kvlm_serialize k
  | .tag k => kvlm_serialize k

/-- The gitdir contents that the object codec touches: a set of existing
directories and a mapping from path to stored file bytes, both with paths
relative to the gitdir. -/
structure FS where
  dirs : List (List Nat)
  files : List (List Nat × List Nat)
deriving DecidableEq

/-- The fanout directory objects/sha[0:2]. -/
def objFanoutDir (sha : List Nat) : List Nat :=
  bstr "objects/" ++ sha.take 2

/-- The loose-object path objects/sha[0:2]/sha[2:]. -/
def objPath (sha : List Nat) : List Nat :=
  bstr "objects/" ++ sha.take 2 ++ [47] ++ sha.drop 2

/-- Look a path up among the stored files. -/
def lookupFile (fs : FS) (p : List Nat) : Option (List Nat) :=
  (fs.files.find? (fun q => decide (q.1 = p))).map (fun q => q.2)

/-- object_write (libwyag.py lines 367 to 383): serialize, prepend the
header kind SP ascii-length NUL, hash the whole with SHA-1, and, when a
repository is given, store the zlib-compressed bytes at the fanout path
(creating the fanout directory, skipping the write if the file exists).
Returns the hex OID together with the updated repository state. -/
def object_write (compress : List Nat → List Nat) (obj : GitObj) (repo : Option FS) :
    Except PyErr (List Nat × Option FS) :=
  match obj.serialize with
  | .error e => .error e
  | .ok data =>
    let result := obj.fmt ++ [32] ++ decStr data.length ++ [0] ++ data
    let sha := sha1Hex result
    match repo with
    | none => .ok (sha, none)
    | some fs =>
      let fan := objFanoutDir sha
      let fs1 : FS :=
        { fs with dirs := if fs.dirs.contains fan then fs.dirs else fan :: fs.dirs }
      let p := objPath sha
      if (lookupFile fs1 p).isSome then .ok (sha, some fs1)
      else .ok (sha, some { fs1 with files := fs1.files ++ [(p, compress result)] })

/-- object_read (libwyag.py lines 317 to 357).  repo_file consults the
fanout directory without creating it: when that directory is absent,
repo_file returns None and os.path.isfile(None) raises TypeError; when the
fanout path exists as a file, repo_dir raises.  With a path in hand, a
missing file returns None.  Otherwise decompress, split the header at the
first SP and first NUL, check the declared length, and dispatch on the
kind, with commit and tag deserializing through kvlm_parse with its
default None accumulator, and tree through tree_parse. -/
def object_read (fuel : Nat) (decompress : List Nat → List Nat) (fs : FS) (sha : List Nat) :
    Except PyErr (Option GitObj) :=
  let fan := objFanoutDir sha
  if fs.dirs.contains fan then
    let p := objPath sha
    match lookupFile fs p with
    | none => .ok none
    | some stored =>
      let raw := decompress stored
      let x := pyFind raw 32 0
      let fmt := pySlice raw 0 x
      let y := pyFind raw 0 x
      match parsePyInt (pySlice raw x y) with
      | .error e => .error e
      | .ok size =>
        if size ≠ (raw.length : Int) - y - 1 then .error .exception
        else
          let payload := pySlice raw (y + 1) raw.length
          if fmt = bstr "commit" then
            match kvlm_parse fuel payload 0 none with
            | .error e => .error e
            | .ok k => .ok (some (.commit k))
          else if fmt = bstr "tree" then
            match tree_parse fuel payload 0 with
            | .error e => .error e
            | .ok items => .ok (some (.tree items))
          else if fmt = bstr "tag" then
            match kvlm_parse fuel payload 0 none with
            | .error e => .error e
            | .ok k => .ok (some (.tag k))
          else if fmt = bstr "blob" then .ok (some (.blob payload))
          else .error .exception
  else if (lookupFile fs fan).isSome then .error .exception
  else .error .typeError

/-! References (libwyag.py lines 805 to 817, 1423 to 1430, 1840 to 1866,
960 to 1001).  The ref store is a mapping from gitdir-relative path to
file content. -/

/-- ref_resolve (libwyag.py lines 805 to 817): a missing file resolves to
None; otherwise drop the final character of the content, recurse on an
indirect reference beginning "ref: ", and return anything else.  The
recursion of the source is unbounded, hence the fuel. -/
def ref_resolve (fuel : Nat) (files : List Nat → Option (List Nat)) (ref : List Nat) :
    Except PyErr (Option (List Nat)) :=
  match fuel with
  | 0 => .error .timeout
  | n + 1 =>
    match files ref with
    | none => .ok none
    | some content =>
      let data := content.dropLast
      if (bstr "ref: ").isPrefixOf data then ref_resolve n files (data.drop 5)
      else .ok (some data)

/-- branch_get_active (libwyag.py lines 1423 to 1430): the branch name
head[16:-1] when HEAD starts with "ref: refs/heads/", and Python False
(here: none) otherwise. -/
def branch_get_active (head : List Nat) : Option (List Nat) :=
  if (bstr "ref: refs/heads/").isPrefixOf head then some ((head.drop 16).dropLast)
  else none

/-- The HEAD-advancing step at the end of cmd_commit (libwyag.py lines
1856 to 1866), as a function of the HEAD file content and the new commit
OID: on an active branch, write the OID plus LF to refs/heads/branch;
otherwise the source writes the single byte LF to HEAD itself.  Returns
the pair (path written, bytes written).  An empty branch name is falsy in
Python and also takes the detached branch. -/
def cmd_commit_update_head (head commit : List Nat) : List Nat × List Nat :=
  match branch_get_active head with
  | some b =>
    if b.isEmpty then (bstr "HEAD", [10])
    else (bstr "refs/heads/" ++ b, commit ++ [10])
  | none => (bstr "HEAD", [10])

/-- The repository state consulted by object_resolve: the ref files, and
for the short-hash branch the listing of objects/prefix when that
directory exists. -/
structure RefRepo where
  files : List Nat → Option (List Nat)
  objdirs : List Nat → Option (List (List Nat))

/-- The regular expression of object_resolve: 4 to 40 hex characters. -/
def isHexName (name : List Nat) : Bool :=
  decide (4 ≤ name.length) && decide (name.length ≤ 40) &&
    name.all (fun c => (48 ≤ c && c ≤ 57) || (65 ≤ c && c ≤ 70) || (97 ≤ c && c ≤ 102))

/-- str.lower on one byte. -/
def pyLowerByte (c : Nat) : Nat := if 65 ≤ c ∧ c ≤ 90 then c + 32 else c

/-- object_resolve (libwyag.py lines 960 to 1001): None for a blank name;
[resolve(HEAD)] for HEAD; otherwise collect short-hash matches from the
object store, then a tag, then a branch.  The tag lookup concatenates
"refs/tags" and the name with no separator, exactly as the source does.
A falsy (None or empty) resolution contributes no candidate. -/
def object_resolve (fuel : Nat) (repo : RefRepo) (name : List Nat) :
    Except PyErr (Option (List (Option (List Nat)))) :=
  if (pyStripBytes name).isEmpty then .ok none
  else if name = bstr "HEAD" then
    match ref_resolve fuel repo.files (bstr "HEAD") with
    | .error e => .error e
    | .ok r => .ok (some [r])
  else
    let hashCands : List (Option (List Nat)) :=
      if isHexName name then
        let lname := name.map pyLowerByte
        let pre := lname.take 2
        match repo.objdirs pre with
        | none => []
        | some listing =>
          let rem := lname.drop 2
          (listing.filter (fun f => rem.isPrefixOf f)).map (fun f => some (pre ++ f))
      else []
    match ref_resolve fuel repo.files (bstr "refs/tags" ++ name) with
    | .error e => .error e
    | .ok tagr =>
      let c1 :=
        match tagr with
        | some t => if t.isEmpty then hashCands else hashCands ++ [some t]
        | none => hashCands
      match ref_resolve fuel repo.files (bstr "refs/heads/" ++ name) with
      | .error e => .error e
      | .ok br =>
        let c2 :=
          match br with
          | some t => if t.isEmpty then c1 else c1 ++ [some t]
          | none => c1
        .ok (some c2)

/-! Ignore engine (libwyag.py lines 1301 to 1406). -/

/-- A parsed ignore rule: pattern bytes and polarity (true = ignore). -/
abbrev IgnoreRule := List Nat × Bool

/-- The layered rulesets: absolute rule lists in order, and the scoped
rule lists keyed by directory (the self.scoped dict of the source). -/
structure GitIgnore where
  absolute : List (List IgnoreRule)
  scopedMap : List (List Nat × List IgnoreRule)

/-- The call fnmatch(path, pattern) at libwyag.py line 1369.  The module
header (line 7) binds the name fnmatch to the fnmatch MODULE, not to the
fnmatch.fnmatch function, and calling a module object raises TypeError
unconditionally. -/
def fnmatch_module (_path _pattern : List Nat) : Except PyErr Bool :=
  .error .typeError

/-- The loop body of check_ignore1, carrying the running result. -/
def check_ignore1_go (path : List Nat) (rules : List IgnoreRule) (result : Option Bool) :
    Except PyErr (Option Bool) :=
  match rules with
  | [] => .ok result
  | (pattern, value) :: rest =>
    match fnmatch_module path pattern with
    | .error e => .error e
    | .ok m => check_ignore1_go path rest (if m then some value else result)

/-- check_ignore1 (libwyag.py lines 1366 to 1371): the last matching rule
of the list decides; None when nothing matched. -/
def check_ignore1 (rules : List IgnoreRule) (path : List Nat) : Except PyErr (Option Bool) :=
  check_ignore1_go path rules none

/-- The while loop of check_ignore_scoped: try the ruleset of each parent
directory from dirname(path) upward; the first directory that produces a
non-None result wins; stop after the empty directory.  Fueled, since the
loop bound is the parent chain. -/
def check_ignore_scoped_go (rules : List (List Nat × List IgnoreRule)) (path : List Nat) :
    Nat → List Nat → Except PyErr (Option Bool)
  | 0, _ => .error .timeout
  | fuel + 1, parent =>
    match (rules.find? (fun q => decide (q.1 = parent))).map (fun q => q.2) with
    | some rs =>
      match check_ignore1 rs path with
      | .error e => .error e
      | .ok (some r) => .ok (some r)
      | .ok none =>
        if parent = [] then .ok none
        else check_ignore_scoped_go rules path fuel (pyDirname parent)
    | none =>
      if parent = [] then .ok none
      else check_ignore_scoped_go rules path fuel (pyDirname parent)

/-- check_ignore_scoped (libwyag.py lines 1374 to 1384). -/
def check_ignore_scoped (rules : List (List Nat × List IgnoreRule)) (path : List Nat) :
    Except PyErr (Option Bool) :=
  check_ignore_scoped_go rules path (path.length + 2) (pyDirname path)

/-- check_ignore_absolute (libwyag.py lines 1387 to 1393): the first
ruleset producing a non-None result wins; default False. -/
def check_ignore_absolute (rules : List (List IgnoreRule)) (path : List Nat) :
    Except PyErr Bool :=
  match rules with
  | [] => .ok false
  | ruleset :: rest =>
    match check_ignore1 ruleset path with
    | .error e => .error e
    | .ok (some r) => .ok r
    | .ok none => check_ignore_absolute rest path

/-- check_ignore (libwyag.py lines 1396 to 1406): absolute paths are a
usage error; scoped rules are consulted first and any decision is final;
otherwise the absolute rulesets decide. -/
def check_ignore (rules : GitIgnore) (path : List Nat) : Except PyErr Bool :=
  if path.head? = some 47 then .error .exception
  else
    match check_ignore_scoped rules.scopedMap path with
    | .error e => .error e
    | .ok (some r) => .ok r
    | .ok none => check_ignore_absolute rules.absolute path

/-! The staging index (libwyag.py lines 1065 to 1233 and 1542 to 1598). -/

/-- One index entry, with the fields GitIndexEntry carries; the SHA is the
40-character lowercase hex string the reader produces, and the name is the
UTF-8 bytes of the path. -/
structure GitIndexEntry where
  ctime : Nat × Nat
  mtime : Nat × Nat
  dev : Nat
  ino : Nat
  mode_type : Nat
  mode_perms : Nat
  uid : Nat
  gid : Nat
  fsize : Nat
  sha : List Nat
  flag_assume_valid : Bool
  flag_stage : Nat
  name : List Nat
deriving DecidableEq

/-- The GitIndex object.  The version field is optional because the class
attribute default is None. -/
structure GitIndex where
  version : Option Nat
  entries : List GitIndexEntry
deriving DecidableEq

/-- GitIndex.__init__ (libwyag.py lines 1115 to 1120), faithfully: the
assignments to self.version and self.entries sit INSIDE the
`if not entries` branch, so that constructing an index with a nonempty
entry list leaves both fields at their class-attribute defaults, version
None and entries the empty list. -/
def gitIndexInit (version : Nat) (entries : List GitIndexEntry) : GitIndex :=
  if entries.isEmpty then { version := some version, entries := entries }
  else { version := none, entries := [] }

/-- raw[idx : idx+n] for the nonnegative slices of the index reader. -/
def sliceN (content : List Nat) (idx n : Nat) : List Nat :=
  (content.drop idx).take n

/-- int.from_bytes(content[idx : idx+n], "big"). -/
def readU (content : List Nat) (idx n : Nat) : Nat :=
  bytesToNat (sliceN content idx n)

/-- The entry-reading loop of index_read (libwyag.py lines 1143 to 1231),
iterated count times over the content after the 12-byte header, including
every assert of the source and the 8-byte alignment step. -/
def index_read_entries (content : List Nat) (idx : Nat) (count : Nat) :
    Except PyErr (List GitIndexEntry) :=
  match count with
  | 0 => .ok []
  | c + 1 =>
    let ctime_s := readU content idx 4
    let ctime_ns := readU content (idx + 4) 4
    let mtime_s := readU content (idx + 8) 4
    let mtime_ns := readU content (idx + 12) 4
    let dev := readU content (idx + 16) 4
    let ino := readU content (idx + 20) 4
    let unused := readU content (idx + 24) 2
    if unused ≠ 0 then .error .assertionError
    else
      let mode := readU content (idx + 26) 2
      let mode_type := mode >>> 12
      if ¬(mode_type = 8 ∨ mode_type = 10 ∨ mode_type = 14) then .error .assertionError
      else
        let mode_perms := mode &&& 511
        let uid := readU content (idx + 28) 4
        let gid := readU content (idx + 32) 4
        let fsize := readU content (idx + 36) 4
        let sha := natToHex40 (readU content (idx + 40) 20)
        let flags := readU content (idx + 60) 2
        let flag_assume_valid := (flags &&& 32768) ≠ 0
        if (flags &&& 16384) ≠ 0 then .error .assertionError
        else
          let flag_stage := flags &&& 12288
          let name_length := flags &&& 4095
          let idx2 := idx + 62
          let nameAndIdx : Except PyErr (List Nat × Nat) :=
            if name_length < 4095 then
              match content[idx2 + name_length]? with
              | none => .error .indexError
              | some b =>
                if b ≠ 0 then .error .assertionError
                else .ok (sliceN content idx2 name_length, idx2 + name_length + 1)
            else
              let null_idx := pyFind content 0 (idx2 + 4095)
              .ok (pySlice content (idx2 : Int) null_idx, (null_idx + 1).toNat)
          match nameAndIdx with
          | .error e => .error e
          | .ok (raw_name, idx3) =>
            let idx4 := (idx3 + 7) / 8 * 8
            let entry : GitIndexEntry :=
              { ctime := (ctime_s, ctime_ns), mtime := (mtime_s, mtime_ns),
                dev := dev, ino := ino, mode_type := mode_type,
                mode_perms := mode_perms, uid := uid, gid := gid,
                fsize := fsize, sha := sha,
                flag_assume_valid := flag_assume_valid,
                flag_stage := flag_stage, name := raw_name }
            match index_read_entries content idx4 c with
            | .error e => .error e
            | .ok rest => .ok (entry :: rest)

/-- index_read (libwyag.py lines 1123 to 1233) on the bytes of an index
file: check the DIRC magic and version 2, read the entry count, parse the
entries, and construct the GitIndex through its initializer. -/
def index_read (raw : List Nat) : Except PyErr GitIndex :=
  if sliceN raw 0 4 ≠ bstr "DIRC" then .error .assertionError
  else
    let version := readU raw 4 4
    if version ≠ 2 then .error .assertionError
    else
      let count := readU raw 8 4
      match index_read_entries (raw.drop 12) 0 count with
      | .error e => .error e
      | .ok entries => .ok (gitIndexInit version entries)

/-- The per-entry body of index_write (libwyag.py lines 1556 to 1598):
the fixed 62-byte prefix (with the mode written on 4 bytes covering the
2 reserved bytes), the name, a NUL, and zero padding to a multiple of 8
of the running offset.  Returns the bytes and the updated offset. -/
def index_write_entry (e : GitIndexEntry) (idx : Nat) : Except PyErr (List Nat × Nat) :=
  match toBytesChecked e.ctime.1 4 with
  | .error er => .error er
  | .ok b1 =>
  match toBytesChecked e.ctime.2 4 with
  | .error er => .error er
  | .ok b2 =>
  match toBytesChecked e.mtime.1 4 with
  | .error er => .error er
  | .ok b3 =>
  match toBytesChecked e.mtime.2 4 with
  | .error er => .error er
  | .ok b4 =>
  match toBytesChecked e.dev 4 with
  | .error er => .error er
  | .ok b5 =>
  match toBytesChecked e.ino 4 with
  | .error er => .error er
  | .ok b6 =>
  match toBytesChecked ((e.mode_type <<< 12) ||| e.mode_perms) 4 with
  | .error er => .error er
  | .ok b7 =>
  match toBytesChecked e.uid 4 with
  | .error er => .error er
  | .ok b8 =>
  match toBytesChecked e.gid 4 with
  | .error er => .error er
  | .ok b9 =>
  match toBytesChecked e.fsize 4 with
  | .error er => .error er
  | .ok b10 =>
  match hexToNat e.sha with
  | none => .error .valueError
  | some shaNum =>
  match toBytesChecked shaNum 20 with
  | .error er => .error er
  | .ok b11 =>
    let fav := if e.flag_assume_valid then 32768 else 0
    let bytes_len := e.name.length
    let name_length := if 4095 ≤ bytes_len then 4095 else bytes_len
    match toBytesChecked (fav ||| e.flag_stage ||| name_length) 2 with
    | .error er => .error er
    | .ok b12 =>
      let body := b1 ++ b2 ++ b3 ++ b4 ++ b5 ++ b6 ++ b7 ++ b8 ++ b9 ++ b10 ++ b11 ++ b12
        ++ e.name ++ [0]
      let idx2 := idx + 62 + e.name.length + 1
      if idx2 % 8 ≠ 0 then
        let pad := 8 - idx2 % 8
        .ok (body ++ List.replicate pad 0, idx2 + pad)
      else .ok (body, idx2)

/-- The entry loop of index_write, threading the running offset. -/
def index_write_entries (entries : List GitIndexEntry) (idx : Nat) :
    Except PyErr (List Nat) :=
  match entries with
  | [] => .ok []
  | e :: rest =>
    match index_write_entry e idx with
    | .error er => .error er
    | .ok (bytes, idx2) =>
      match index_write_entries rest idx2 with
      | .error er => .error er
      | .ok more => .ok (bytes ++ more)

/-- index_write (libwyag.py lines 1542 to 1598) as the bytes it writes:
DIRC magic, index.version.to_bytes(4) (AttributeError when the version is
the class default None), the entry count, and the entries. -/
def index_write (index : GitIndex) : Except PyErr (List Nat) :=
  match index.version with
  | none => .error .attributeError
  | some v =>
    match toBytesChecked v 4 with
    | .error er => .error er
    | .ok vb =>
      match toBytesChecked index.entries.length 4 with
      | .error er => .error er
      | .ok cb =>
        match index_write_entries index.entries 0 with
        | .error er => .error er
        | .ok body => .ok (bstr "DIRC" ++ vb ++ cb ++ body)

/-! Tree builder from the index (libwyag.py lines 1750 to 1816). -/

/-- A bucket element of the contents dict: a regular index entry, or an
already-built subtree stored as the pair (basename, tree OID). -/
abbrev TfiVal := Sum GitIndexEntry (List Nat × List Nat)

/-- The contents dict: directory path to bucket, insertion ordered. -/
abbrev TfiContents := List (List Nat × List TfiVal)

/-- key in contents. -/
def tfiHas (c : TfiContents) (k : List Nat) : Bool :=
  c.any (fun p => decide (p.1 = k))

/-- contents[k], defaulting to the empty bucket. -/
def tfiGet (c : TfiContents) (k : List Nat) : List TfiVal :=
  ((c.find? (fun p => decide (p.1 = k))).map (fun p => p.2)).getD []

/-- contents[k] = v, in place for an existing key, appended otherwise. -/
def tfiSet (c : TfiContents) (k : List Nat) (v : List TfiVal) : TfiContents :=
  if tfiHas c k then c.map (fun p => if p.1 = k then (k, v) else p)
  else c ++ [(k, v)]

/-- contents[k].append(v). -/
def tfiAppend (c : TfiContents) (k : List Nat) (v : TfiVal) : TfiContents :=
  tfiSet c k (tfiGet c k ++ [v])

/-- The inner while loop of tree_from_index that creates an empty bucket
for every ancestor directory of a key, stopping at the empty root key
(which is created before the loop).  Fueled by the path length. -/
def tfiEnsure : Nat → TfiContents → List Nat → TfiContents
  | 0, c, _ => c
  | fuel + 1, c, key =>
    if key = [] then c
    else tfiEnsure fuel (if tfiHas c key then c else c ++ [(key, [])]) (pyDirname key)

/-- The first loop of tree_from_index: bucket every entry under its
directory, creating ancestor buckets. -/
def tfiFill (c : TfiContents) (entries : List GitIndexEntry) : TfiContents :=
  entries.foldl
    (fun c e =>
      let dir := pyDirname e.name
      let c2 := tfiEnsure (dir.length + 2) c dir
      tfiAppend c2 dir (Sum.inl e))
    c

/-- Octal digits of `n` as bytes, zero padded on the left to `width`
(the format specifiers 02o and 04o of the source). -/
def octPad (n width : Nat) : List Nat :=
  let d := (Nat.toDigits 8 n).map Char.toNat
  List.replicate (width - d.length) 48 ++ d

/-- Turn one bucket element into the tree leaf the source builds for it:
an index entry keeps its transcoded mode and basename, a built subtree
gets mode 040000. -/
def tfiLeaf (v : TfiVal) : GitTreeLeaf :=
  match v with
  | .inl e =>
    { mode := octPad e.mode_type 2 ++ octPad e.mode_perms 4,
      path := pyBasename e.name, sha := e.sha }
  | .inr (base, sha) => { mode := bstr "040000", path := base, sha := sha }

/-- The main loop of tree_from_index over the length-sorted directory
list: write the tree of each bucket and push the pair (basename, OID)
into the parent bucket; the variable sha ends as the root OID. -/
def tfiBuild (compress : List Nat → List Nat) (paths : List (List Nat))
    (c : TfiContents) (fs : FS) (sha : Option (List Nat)) :
    Except PyErr (FS × Option (List Nat)) :=
  match paths with
  | [] => .ok (fs, sha)
  | path :: rest =>
    let items := (tfiGet c path).map tfiLeaf
    match object_write compress (.tree items) (some fs) with
    | .error e => .error e
    | .ok (sha2, fsOpt) =>
      let fs2 := fsOpt.getD fs
      let c2 := tfiAppend c (pyDirname path) (Sum.inr (pyBasename path, sha2))
      tfiBuild compress rest c2 fs2 (some sha2)

/-- tree_from_index (libwyag.py lines 1750 to 1816): bucket the entries by
directory with the root pre-created, sort the directories by length
descending (stable, as Python sorted with reverse=True), then build and
write the trees bottom-up, returning the final repository state and the
root tree OID. -/
def tree_from_index (compress : List Nat → List Nat) (fs : FS)
    (entries : List GitIndexEntry) : Except PyErr (FS × Option (List Nat)) :=
  let c : TfiContents := tfiFill [([], [])] entries
  let paths :=
    List.insertionSort (fun a b : List Nat => b.length ≤ a.length) (c.map (fun p => p.1))
  tfiBuild compress paths c fs none

/-! Concrete inputs used by the claim theorems. -/

/-- A 40-character hex OID used as ref content in examples. -/
def exOid : List Nat := bstr "aaaaaaaaaaaaaaaaaaaaaaaaaaaaaaaaaaaaaaaa"

/-- A small commit object: a tree header line and a message, the shape
commit_create builds and the commit deserializer reads back. -/
def exCommit : GitObj :=
  .commit [(some (bstr "tree"), .one exOid), (none, .one (bstr "msg"))]

/-- A small blob object holding the bytes of the S1 scenario. -/
def exBlob : GitObj := .blob (bstr "hello\n")

/-- The OID returned by a write result (the examples only apply it to
successful writes into a repository). -/
def exWriteSha (r : Except PyErr (List Nat × Option FS)) : List Nat :=
  match r with
  | .ok (s, _) => s
  | _ => []

/-- The repository state of a write result. -/
def exWriteFS (r : Except PyErr (List Nat × Option FS)) : FS :=
  match r with
  | .ok (_, some fs) => fs
  | _ => { dirs := [], files := [] }

/-- The empty repository state. -/
def emptyFS : FS := { dirs := [], files := [] }

/-- Writing the example commit into an empty repository, with the zlib
codec instantiated to the identity. -/
def exCommitWrite : Except PyErr (List Nat × Option FS) :=
  object_write id exCommit (some emptyFS)

/-- Writing the example blob into an empty repository. -/
def exBlobWrite : Except PyErr (List Nat × Option FS) :=
  object_write id exBlob (some emptyFS)

/-- A well-formed KVLM byte string: one header line, a blank line, and a
message. -/
def exKvlmInput : List Nat := bstr "a b\n\nm\n"

/-- The bytes of a well-formed version-2 index file with one entry named
a: the DIRC header, a 62-byte fixed prefix (regular file, mode 0644, all
other fields zero), the name, a NUL, and no padding (the entry is exactly
64 bytes). -/
def exIndexFile : List Nat :=
  bstr "DIRC" ++ [0, 0, 0, 2, 0, 0, 0, 1] ++ List.replicate 26 0 ++ [129, 164]
    ++ List.replicate 32 0 ++ [0, 1, 97, 0]

/-- A symlink tree leaf (mode 120000) named a. -/
def exLeafSymlink : GitTreeLeaf :=
  { mode := bstr "120000", path := bstr "a", sha := List.replicate 40 48 }

/-- A regular tree leaf (mode 100644) named a.txt. -/
def exLeafFile : GitTreeLeaf :=
  { mode := bstr "100644", path := bstr "a.txt", sha := List.replicate 40 48 }

/-- A regular leaf named a with mode 100644. -/
def exLeafA1 : GitTreeLeaf :=
  { mode := bstr "100644", path := bstr "a", sha := List.replicate 40 48 }

/-- A regular leaf named a with mode 100755: its sort key equals that of
exLeafA1 although the leaves differ. -/
def exLeafA2 : GitTreeLeaf :=
  { mode := bstr "100755", path := bstr "a", sha := List.replicate 40 49 }

/-- Two regular leaves with distinct names, for the witness. -/
def exLeafWa : GitTreeLeaf :=
  { mode := bstr "100644", path := bstr "a", sha := List.replicate 40 48 }

/-- Second witness leaf, named b. -/
def exLeafWb : GitTreeLeaf :=
  { mode := bstr "100644", path := bstr "b", sha := List.replicate 40 49 }

/-- A detached HEAD file content: a bare commit OID and a newline. -/
def exDetachedHead : List Nat := exOid ++ [10]

/-- Ignore rules with one scoped ruleset at the repository root holding
the single pattern *.log. -/
def exIgnore : GitIgnore :=
  { absolute := [], scopedMap := [([], [(bstr "*.log", true)])] }

/-- Ref files containing exactly the lightweight tag refs/tags/v1. -/
def exTagFiles : List Nat → Option (List Nat) :=
  fun p => if p = bstr "refs/tags/v1" then some (exOid ++ [10]) else none

/-- The repository state around exTagFiles, with no object directories. -/
def exTagRepo : RefRepo :=
  { files := exTagFiles, objdirs := fun _ => none }

/-- Ref files forming a two-step reference cycle below HEAD. -/
def exCycleFiles : List Nat → Option (List Nat) :=
  fun p =>
    if p = bstr "HEAD" then some (bstr "ref: refs/heads/a\n")
    else if p = bstr "refs/heads/a" then some (bstr "ref: refs/heads/b\n")
    else if p = bstr "refs/heads/b" then some (bstr "ref: refs/heads/a\n")
    else none

/-- Ref resolution on a given ref never produces an answer, whatever
recursion budget it is given: the model of a non-terminating
ref_resolve call. -/
def ref_resolve_no_answer (files : List Nat → Option (List Nat)) (ref : List Nat) : Prop :=
  ∀ fuel : Nat, ref_resolve fuel files ref = .error .timeout

/-- A concrete acyclic chain for the C8 witness: HEAD to refs/heads/master
to an OID. -/
def exChainFiles : List Nat → Option (List Nat) :=
  fun p =>
    if p = bstr "HEAD" then some (bstr "ref: refs/heads/master\n")
    else if p = bstr "refs/heads/master" then some (exOid ++ [10])
    else none

/-- A missing-object example state: the fanout directory objects/ab exists
and holds no files. -/
def exMissingFS : FS := { dirs := [bstr "objects/ab"], files := [] }

/-- One unfolding step of ref_resolve on a positive fuel value. -/
theorem ref_resolve_step (n : Nat) (files : List Nat → Option (List Nat)) (ref : List Nat) :
    ref_resolve (n + 1) files ref =
      match files ref with
      | none => .ok none
      | some content =>
        let data := content.dropLast
        if (bstr "ref: ").isPrefixOf data then ref_resolve n files (data.drop 5)
        else .ok (some data) := rfl

/-- listLe is total. -/
theorem listLe_total : ∀ (a b : List Nat), listLe a b = true ∨ listLe b a = true
  | [], _ => Or.inl rfl
  | _ :: _, [] => Or.inr rfl
  | a :: as, b :: bs => by
    rcases Nat.lt_trichotomy a b with h | h | h
    · left; simp [listLe, h]
    · subst h
      rcases listLe_total as bs with h | h
      · left; simpa [listLe, Nat.lt_irrefl] using h
      · right; simpa [listLe, Nat.lt_irrefl] using h
    · right; simp [listLe, h]

/-- listLe is transitive. -/
theorem listLe_trans : ∀ (a b c : List Nat),
    listLe a b = true → listLe b c = true → listLe a c = true
  | [], _, _ => by intro _ _; rfl
  | _ :: _, [], _ => by intro h _; simp [listLe] at h
  | _ :: _, _ :: _, [] => by intro _ h; simp [listLe] at h
  | a :: as, b :: bs, c :: cs => by
    intro h1 h2
    rcases Nat.lt_trichotomy a b with hab | hab | hab
    · rcases Nat.lt_trichotomy b c with hbc | hbc | hbc
      · simp [listLe, Nat.lt_trans hab hbc]
      · subst hbc; simp [listLe, hab]
      · simp [listLe, hbc, Nat.lt_asymm hbc] at h2
    · subst hab
      rcases Nat.lt_trichotomy a c with hbc | hbc | hbc
      · simp [listLe, hbc]
      · subst hbc
        simp only [listLe, Nat.lt_irrefl, if_false] at h1 h2 ⊢
        exact listLe_trans as bs cs h1 h2
      · simp [listLe, hbc, Nat.lt_asymm hbc] at h2
    · simp [listLe, hab, Nat.lt_asymm hab] at h1

/-- listLe is antisymmetric. -/
theorem listLe_antisymm : ∀ (a b : List Nat),
    listLe a b = true → listLe b a = true → a = b
  | [], [] => fun _ _ => rfl
  | [], _ :: _ => fun _ h => by simp [listLe] at h
  | _ :: _, [] => fun h _ => by simp [listLe] at h
  | a :: as, b :: bs => by
    intro h1 h2
    have hab : a = b := by
      rcases Nat.lt_trichotomy a b with h | h | h
      · simp [listLe, h, Nat.lt_asymm h] at h2
      · exact h
      · simp [listLe, h, Nat.lt_asymm h] at h1
    subst hab
    simp only [listLe, Nat.lt_irrefl, if_false] at h1 h2
    exact congrArg (a :: ·) (listLe_antisymm as bs h1 h2)

/-- treeLeafLe is transitive. -/
theorem treeLeafLe_trans (a b c : GitTreeLeaf) :
    treeLeafLe a b = true → treeLeafLe b c = true → treeLeafLe a c = true :=
  listLe_trans _ _ _

/-- treeLeafLe is total, in the Boolean form sorted_mergeSort expects. -/
theorem treeLeafLe_total (a b : GitTreeLeaf) : (treeLeafLe a b || treeLeafLe b a) = true := by
  rcases listLe_total (tree_leaf_sort_key a) (tree_leaf_sort_key b) with h | h <;>
    simp [treeLeafLe, h]

/-- A list is a Boolean prefix of itself extended by anything. -/
theorem isPrefixOf_self_append (l t : List Nat) : l.isPrefixOf (l ++ t) = true := by
  induction l with
  | nil => cases t <;> rfl
  | cons a l ih => simp [List.isPrefixOf, ih]

/-- Two lists of tree leaves that are permutations of each other, both
sorted by treeLeafLe, and whose sort keys are pairwise distinct, are
equal. -/
theorem eq_of_perm_sorted_nodup :
    ∀ {l₁ l₂ : List GitTreeLeaf}, l₁.Perm l₂ →
      l₁.Pairwise (fun a b => treeLeafLe a b = true) →
      l₂.Pairwise (fun a b => treeLeafLe a b = true) →
      (l₂.map tree_leaf_sort_key).Nodup → l₁ = l₂
  | [], l₂ => by
    intro hp _ _ _
    exact hp.symm.eq_nil.symm
  | a :: t, l₂ => by
    intro hp h₁ h₂ hnd
    cases l₂ with
    | nil => exact absurd hp.eq_nil (List.cons_ne_nil a t)
    | cons b t₂ =>
      by_cases hab : a = b
      · subst hab
        have ht : t.Perm t₂ := hp.cons_inv
        have heq : t = t₂ :=
          eq_of_perm_sorted_nodup ht h₁.of_cons h₂.of_cons (List.nodup_cons.mp hnd).2
        rw [heq]
      · exfalso
        have hat₂ : a ∈ t₂ := by
          have := hp.mem_iff.mp (List.mem_cons_self a t)
          rcases List.mem_cons.mp this with h | h
          · exact absurd h hab
          · exact h
        have hbt : b ∈ t := by
          have := hp.symm.mem_iff.mp (List.mem_cons_self b t₂)
          rcases List.mem_cons.mp this with h | h
          · exact absurd h.symm hab
          · exact h
        have hle1 : treeLeafLe a b = true := (List.pairwise_cons.mp h₁).1 b hbt
        have hle2 : treeLeafLe b a = true := (List.pairwise_cons.mp h₂).1 a hat₂
        have hkey : tree_leaf_sort_key a = tree_leaf_sort_key b :=
          listLe_antisymm _ _ hle1 hle2
        have hnotin : tree_leaf_sort_key b ∉ t₂.map tree_leaf_sort_key :=
          (List.nodup_cons.mp hnd).1
        exact hnotin (hkey ▸ List.mem_map_of_mem tree_leaf_sort_key hat₂)

/-- Claim C1: writing any object with object_write and reading the stored
bytes back with object_read should yield an object bytewise equal to the
original.  The code violates this: for a commit (or tag) object,
object_read dispatches to the commit deserializer, whose kvlm_parse call
leaves its default None accumulator in place (the inverted condition at
line 509) and raises TypeError.  This theorem evaluates the code at the
failing input: the blob written in exBlobWrite round-trips and hashes to
the canonical OID of the bytes hello LF, while reading back the commit
written in exCommitWrite raises TypeError instead of returning the
commit. -/
theorem object_write_read_commit_raises :
    object_read 99 id (exWriteFS exCommitWrite) (exWriteSha exCommitWrite) =
      .error .typeError ∧
    object_read 99 id (exWriteFS exBlobWrite) (exWriteSha exBlobWrite) =
      .ok (some exBlob) ∧
    exWriteSha exBlobWrite = bstr "ce013625030ba8dba906f756967f9e9ca394464a" :=
  ⟨by decide, by decide, by decide⟩

/-- Claim C2: serialize(parse(b)) = b should hold for every parseable
KVLM input when kvlm_parse is invoked as the object deserializers invoke
it (with the accumulator argument left at its default None).  The code
violates this: the inverted condition of kvlm_parse keeps the None
accumulator, and the subsequent dictionary operation on it raises
TypeError.  This theorem evaluates the code at the failing input, a
well-formed one-header KVLM byte string. -/
theorem kvlm_parse_default_accumulator_raises :
    kvlm_parse 99 exKvlmInput 0 none = .error .typeError := by decide

/-- Claim C3: index_write(index_read(f)) should reproduce a well-formed,
name-sorted version-2 index file byte for byte.  The code violates this
for every file with at least one entry: GitIndex.__init__ assigns
self.version and self.entries only inside its `if not entries` branch, so
index_read hands back an object whose version is the class default None,
and index_write raises AttributeError on None.to_bytes.  This theorem
evaluates the code at the failing input, a well-formed 76-byte index file
with a single entry. -/
theorem index_write_read_raises :
    (index_read exIndexFile).bind index_write = .error .attributeError := by decide

/-- Claim C4 counterexample.  The claim states that tree serialization
sorts by the key that appends a slash exactly for directory modes
(beginning 04) and is the bare name for every non-directory mode, and
that multiset-equal item lists always serialize identically.  Both parts
fail on the code: (1) tree_leaf_sort_key appends the slash for every mode
that does not begin with 10, so a symlink leaf (mode 120000) named a is
keyed a-slash and sorts after a regular leaf named a.txt, giving bytes
different from the claimed ordering; (2) two leaves that differ only in
mode (100644 versus 100755) share one sort key, so the stable sort
preserves their input order and the two orders of the same multiset
serialize to different bytes. -/
theorem tree_sort_key_claim_counterexample :
    tree_serialize [exLeafSymlink, exLeafFile] ≠
      tree_serialize_specsort [exLeafSymlink, exLeafFile] ∧
    [exLeafA1, exLeafA2].Perm [exLeafA2, exLeafA1] ∧
    tree_serialize [exLeafA1, exLeafA2] ≠ tree_serialize [exLeafA2, exLeafA1] :=
  ⟨by decide, List.Perm.swap exLeafA2 exLeafA1 [], by decide⟩

/-- Claim C4, amended: tree serialization sorts its items by the key that
is the entry name with a slash appended if and only if the mode does not
begin with 10 (so directory modes 04, but also symlink 12 and gitlink 16,
get the slash), and consequently any two tree-item lists that are equal
as multisets and whose items have pairwise distinct sort keys serialize
to identical bytes, hence identical OIDs. -/
theorem tree_serialize_perm_of_nodup_keys (l₁ l₂ : List GitTreeLeaf)
    (hp : l₁.Perm l₂) (hnd : (l₂.map tree_leaf_sort_key).Nodup) :
    tree_serialize l₁ = tree_serialize l₂ := by
  haveI : IsTotal GitTreeLeaf leafRel :=
    ⟨fun a b => listLe_total (tree_leaf_sort_key a) (tree_leaf_sort_key b)⟩
  haveI : IsTrans GitTreeLeaf leafRel :=
    ⟨fun _ _ _ hab hbc => listLe_trans _ _ _ hab hbc⟩
  unfold tree_serialize
  congr 1
  apply eq_of_perm_sorted_nodup
  · exact ((List.perm_insertionSort leafRel l₁).trans hp).trans
      (List.perm_insertionSort leafRel l₂).symm
  · exact List.sorted_insertionSort leafRel l₁
  · exact List.sorted_insertionSort leafRel l₂
  · exact ((List.perm_insertionSort leafRel l₂).map tree_leaf_sort_key).symm.nodup hnd

/-- Witness for the amended claim C4, at two regular leaves named a and b:
the hypotheses hold and the two orders serialize identically. -/
theorem tree_serialize_perm_of_nodup_keys_witness :
    ([exLeafWa, exLeafWb].Perm [exLeafWb, exLeafWa] ∧
      (([exLeafWb, exLeafWa]).map tree_leaf_sort_key).Nodup) ∧
    tree_serialize [exLeafWa, exLeafWb] = tree_serialize [exLeafWb, exLeafWa] :=
  ⟨⟨List.Perm.swap exLeafWb exLeafWa [], by decide⟩,
    tree_serialize_perm_of_nodup_keys [exLeafWa, exLeafWb] [exLeafWb, exLeafWa]
      (List.Perm.swap exLeafWb exLeafWa []) (by decide)⟩

/-- Claim C5: after the commit pipeline writes a commit with OID c, a HEAD
of the form ref colon refs/heads/b makes the code overwrite refs/heads/b
with c plus LF (which holds), and a detached HEAD should be overwritten
with c itself.  The code violates the detached case: it writes the single
byte LF to HEAD, not the commit OID.  This theorem evaluates the
HEAD-advancing step of cmd_commit on both shapes of HEAD content. -/
theorem cmd_commit_detached_head_writes_newline :
    cmd_commit_update_head (bstr "ref: refs/heads/master\n") (bstr "c0ffee") =
      (bstr "refs/heads/master", bstr "c0ffee\n") ∧
    cmd_commit_update_head exDetachedHead (bstr "c0ffee") = (bstr "HEAD", [10]) :=
  ⟨by decide, by decide⟩

/-- Claim C6: check_ignore should consult the scoped rules from
dirname(path) upward with last-match-wins inside a ruleset, then the
absolute rulesets, defaulting to not ignored.  The code cannot produce
any of these results once a consulted ruleset is nonempty: the module
header imports the fnmatch module itself, so the call fnmatch(path,
pattern) in check_ignore1 calls a module object and raises TypeError.
This theorem evaluates the code at the failing input of the S6 scenario,
a root ruleset containing the pattern *.log and the path foo.log, which
the claim says is ignored. -/
theorem check_ignore_module_call_raises :
    check_ignore exIgnore (bstr "foo.log") = .error .typeError := by decide

/-- Claim C7: for a name that is neither HEAD nor hex-like, a resolvable
ref file refs/tags/name should contribute its resolved OID to the
candidates of object_resolve.  The code violates this: it concatenates
refs/tags and the name without a separator, so the tag v1 is looked up at
refs/tagsv1 and never found.  This theorem evaluates the code at the
failing input: the ref file refs/tags/v1 resolves on its own, yet
object_resolve returns an empty candidate list for v1. -/
theorem object_resolve_tag_lookup_misses :
    ref_resolve 9 exTagFiles (bstr "refs/tags/v1") = .ok (some exOid) ∧
    object_resolve 9 exTagRepo (bstr "v1") = .ok (some []) :=
  ⟨by decide, by decide⟩

/-- Claim C8, amended: for any ref-file state containing an acyclic chain
HEAD to refs/heads/x to an OID, ref_resolve on HEAD returns that OID (two
units of recursion depth suffice); but on a cyclic chain ref_resolve does
not terminate with any result at all, rather than failing cleanly with a
corruption error: the source recurses without bound and without cycle
detection. -/
theorem ref_resolve_head_chain (n : Nat) (files : List Nat → Option (List Nat))
    (x oid : List Nat)
    (h1 : files (bstr "HEAD") = some (bstr "ref: refs/heads/" ++ (x ++ [10])))
    (h2 : files (bstr "refs/heads/" ++ x) = some (oid ++ [10]))
    (h3 : (bstr "ref: ").isPrefixOf oid = false) :
    ref_resolve (n + 2) files (bstr "HEAD") = .ok (some oid) := by
  have hsplit : bstr "ref: refs/heads/" = bstr "ref: " ++ bstr "refs/heads/" := by decide
  have e1 : (bstr "ref: refs/heads/" ++ (x ++ [10])).dropLast =
      bstr "ref: refs/heads/" ++ x := by
    rw [← List.append_assoc, List.dropLast_concat]
  have e2 : (bstr "ref: ").isPrefixOf (bstr "ref: refs/heads/" ++ x) = true := by
    rw [hsplit, List.append_assoc]
    exact isPrefixOf_self_append _ _
  have e3 : (bstr "ref: refs/heads/" ++ x).drop 5 = bstr "refs/heads/" ++ x := by
    rw [hsplit, List.append_assoc,
      (by decide : (5 : Nat) = (bstr "ref: ").length), List.drop_left]
  have e4 : (oid ++ [10]).dropLast = oid := List.dropLast_concat
  rw [ref_resolve_step, h1]
  simp only [e1, e2, if_true, e3]
  rw [ref_resolve_step, h2]
  simp only [e4, h3, Bool.false_eq_true, if_false]

/-- Witness for the amended claim C8 at a concrete two-step chain: HEAD
points at refs/heads/master, which holds an OID, and ref_resolve on HEAD
returns that OID. -/
theorem ref_resolve_head_chain_witness :
    (exChainFiles (bstr "HEAD") = some (bstr "ref: refs/heads/" ++ (bstr "master" ++ [10])) ∧
      exChainFiles (bstr "refs/heads/" ++ bstr "master") = some (exOid ++ [10]) ∧
      (bstr "ref: ").isPrefixOf exOid = false) ∧
    ref_resolve 2 exChainFiles (bstr "HEAD") = .ok (some exOid) :=
  ⟨⟨by decide, by decide, by decide⟩,
    ref_resolve_head_chain 0 exChainFiles (bstr "master") exOid (by decide) (by decide)
      (by decide)⟩

/-- Claim C8 counterexample.  The claim states that a cyclic indirection
chain makes ref_resolve terminate with a clean corruption error.  On the
code, resolution of a two-step cycle under HEAD never produces any result,
whatever recursion budget it is granted: the source recurses through the
cycle forever (in CPython, until the interpreter recursion limit aborts
it), and no control path diagnoses the corruption. -/
theorem ref_resolve_cycle_counterexample :
    ref_resolve_no_answer exCycleFiles (bstr "HEAD") := by
  have key : ∀ n : Nat,
      ref_resolve n exCycleFiles (bstr "refs/heads/a") = .error .timeout ∧
      ref_resolve n exCycleFiles (bstr "refs/heads/b") = .error .timeout := by
    intro n
    induction n with
    | zero => exact ⟨rfl, rfl⟩
    | succ n ih => exact ⟨ih.2, ih.1⟩
  intro fuel
  cases fuel with
  | zero => rfl
  | succ n => exact (key n).1

/-- Claim C9: building a tree from an index with zero entries writes
exactly one tree object, the empty tree, and returns the OID
4b825dc642cb6eb9a060e54bf8d69288fbee4904.  Confirmed by evaluation: on
the empty entry list, tree_from_index starting from an empty store writes
the single object tree SP 0 NUL at the fanout path of that OID and
returns it. -/
theorem tree_from_index_empty_tree :
    tree_from_index id emptyFS [] =
      .ok ({ dirs := [bstr "objects/4b"],
             files := [(bstr "objects/4b/825dc642cb6eb9a060e54bf8d69288fbee4904",
                        bstr "tree 0" ++ [0])] },
           some (bstr "4b825dc642cb6eb9a060e54bf8d69288fbee4904")) := by decide

/-- Claim C10: when the fanout directory objects/sha[0:2] exists but the
loose-object file objects/sha[0:2]/sha[2:] is absent, object_read returns
None rather than raising: confirmed, for every repository state, OID and
decompression function. -/
theorem object_read_absent_object_none (fuel : Nat) (decompress : List Nat → List Nat)
    (fs : FS) (sha : List Nat)
    (hdir : fs.dirs.contains (objFanoutDir sha) = true)
    (hfile : lookupFile fs (objPath sha) = none) :
    object_read fuel decompress fs sha = .ok none := by
  unfold object_read
  simp only [hdir, if_true, hfile]

/-- Witness for claim C10 at a concrete state: the fanout directory
objects/ab exists, no file is stored, and object_read of the OID abcd
returns None. -/
theorem object_read_absent_object_none_witness :
    (exMissingFS.dirs.contains (objFanoutDir (bstr "abcd")) = true ∧
      lookupFile exMissingFS (objPath (bstr "abcd")) = none) ∧
    object_read 3 id exMissingFS (bstr "abcd") = .ok none :=
  ⟨⟨by decide, by decide⟩,
    object_read_absent_object_none 3 id exMissingFS (bstr "abcd") (by decide) (by decide)⟩
